import Mathlib

/-!
Shallow embedding of `src/devinterp/zoo/tms/data.py`: the synthetic sparse
dataset generator (`SyntheticDataset` and its two subclasses
`SyntheticUniformValued` and `SyntheticBinaryValued`).

Modelling conventions:
* Tensor entries are rationals (`ℚ`); a 2-D tensor is a `List (List ℚ)`
  in row-major order, matching shape `(num_samples, num_features)`.
* The runtime type of the Python `sparsity` argument is made explicit as
  the inductive `SparsityArg` (float / int / bool / str), mirroring the
  `isinstance` dispatch in `generate_mask`.  Python's `bool` is a subtype
  of `int` but not of `float`, so the `isinstance(self.sparsity, float)`
  test fails on booleans and the `isinstance(self.sparsity, int)` test
  succeeds; the match below encodes exactly that dispatch order.
* Randomness is passed in explicitly: `bern i j` is the Bernoulli draw of
  `torch.bernoulli` for entry `(i, j)`, `perm` is the output of
  `torch.randperm(num_features)` (theorems hypothesise that it is a
  permutation of `List.range num_features`, which `randperm` guarantees),
  and `rng i j` is the `torch.rand` draw for entry `(i, j)` (theorems
  hypothesise `0 ≤ rng i j < 1`, which `torch.rand` guarantees).
* Fallible code returns `Except String`: `ValueError` from
  `generate_mask` and `IndexError` from tensor indexing become `.error`.
  A failed construction returns `.error`, so no dataset object (and in
  particular no `data` field) is produced on failure.
-/

namespace TMSData

/-- Decidable equality on `Except`, so that concrete runs of the
fallible operations can be checked by `decide`. -/
instance exceptDecEq {ε α : Type} [DecidableEq ε] [DecidableEq α] :
    DecidableEq (Except ε α) := fun a b =>
  match a, b with
  | .error e1, .error e2 =>
    if h : e1 = e2 then .isTrue (by rw [h])
    else .isFalse (by intro hc; cases hc; exact h rfl)
  | .ok a1, .ok a2 =>
    if h : a1 = a2 then .isTrue (by rw [h])
    else .isFalse (by intro hc; cases hc; exact h rfl)
  | .error _, .ok _ => .isFalse (by intro hc; cases hc)
  | .ok _, .error _ => .isFalse (by intro hc; cases hc)

/-- The runtime type of the Python `sparsity` argument. -/
inductive SparsityArg where
  | floatVal (p : ℚ)
  | intVal (k : ℤ)
  | boolVal (b : Bool)
  | strVal (s : String)
deriving DecidableEq, Repr

/-- The Python type name of a `sparsity` argument, interpolated into the
`ValueError` message `f"... Received {type(self.sparsity)}."` (Python
renders it with surrounding class-repr decoration, kept out of the
modelled string). -/
def SparsityArg.typeName : SparsityArg → String
  | .floatVal _ => "float"
  | .intVal _ => "int"
  | .boolVal _ => "bool"
  | .strVal _ => "str"

/-- Python slice `xs[:stop]` with an integer `stop`: a nonnegative stop
takes the first `stop` elements (truncating at the length), a negative
stop drops the last `-stop` elements. -/
def pySliceTo {α : Type} (stop : ℤ) (xs : List α) : List α :=
  if 0 ≤ stop then xs.take stop.toNat
  else xs.take (xs.length - (-stop).toNat)

/-- Float-sparsity mask:
`torch.bernoulli(torch.ones((num_samples, num_features)) * (1 - sparsity))`,
with the per-entry Bernoulli draws supplied by `bern`. -/
def bernoulliMask (num_samples num_features : ℕ) (bern : ℕ → ℕ → Bool) :
    List (List ℚ) :=
  (List.range num_samples).map fun i =>
    (List.range num_features).map fun j => if bern i j then 1 else 0

/-- Integer-sparsity mask:
`mask = torch.zeros((num_samples, num_features)); mask[:, indices] = 1`.
Every row is the same: entry `j` is `1` iff `j ∈ indices`. -/
def intPolicyMask (num_samples num_features : ℕ) (indices : List ℕ) :
    List (List ℚ) :=
  List.replicate num_samples
    ((List.range num_features).map fun j => if j ∈ indices then (1 : ℚ) else 0)

/-- `SyntheticDataset.generate_mask`.  Dispatches on the runtime type of
`sparsity`: `float` → Bernoulli mask (after `torch.bernoulli`'s check that
the probability `1 - sparsity` lies in `[0, 1]`); `int` (which in Python
also matches `bool`, with `True` slicing as `1` and `False` as `0`) →
shared-support mask from `torch.randperm(num_features)[: sparsity]`;
anything else → `ValueError`. -/
def generate_mask (num_samples num_features : ℕ) (sparsity : SparsityArg)
    (bern : ℕ → ℕ → Bool) (perm : List ℕ) : Except String (List (List ℚ)) :=
  match sparsity with
  | .floatVal p =>
      if 0 ≤ 1 - p ∧ 1 - p ≤ 1 then .ok (bernoulliMask num_samples num_features bern)
      else .error "RuntimeError: bernoulli expects probabilities to be in [0, 1]"
  | .intVal k =>
      .ok (intPolicyMask num_samples num_features (pySliceTo k perm))
  | .boolVal b =>
      .ok (intPolicyMask num_samples num_features
        (pySliceTo (if b then 1 else 0) perm))
  | .strVal _ =>
      .error ("Sparsity must be a float or an integer. Received "
        ++ SparsityArg.typeName sparsity ++ ".")

/-- The result of `generate_values`: either a scalar (the binary variant
returns the Python float `1.0`) or a full `(num_samples, num_features)`
tensor (the uniform variant returns `torch.rand(...)`). -/
inductive TorchVal where
  | scalar (c : ℚ)
  | matrix (m : List (List ℚ))
deriving DecidableEq, Repr

/-- The matrix produced by `torch.rand((num_samples, num_features))`,
with the per-entry draws supplied by `rng`. -/
def uvMatrix (num_samples num_features : ℕ) (rng : ℕ → ℕ → ℚ) :
    List (List ℚ) :=
  (List.range num_samples).map fun i =>
    (List.range num_features).map fun j => rng i j

/-- `SyntheticUniformValued.generate_values`. -/
def uniformValues (num_samples num_features : ℕ) (rng : ℕ → ℕ → ℚ) : TorchVal :=
  .matrix (uvMatrix num_samples num_features rng)

/-- `SyntheticBinaryValued.generate_values`: the constant `1.0`. -/
def binaryValues : TorchVal := .scalar 1

/-- Torch's `mask * values`: elementwise product when `values` is a
tensor of the same shape, scalar broadcast when it is a scalar. -/
def tensorMul (mask : List (List ℚ)) : TorchVal → List (List ℚ)
  | .scalar c => mask.map fun row => row.map fun x => x * c
  | .matrix m => List.zipWith (List.zipWith (· * ·)) mask m

/-- The fields of a constructed `SyntheticDataset` object. -/
structure SyntheticDataset where
  num_samples : ℕ
  num_features : ℕ
  sparsity : SparsityArg
  data : List (List ℚ)
deriving DecidableEq, Repr

/-- `SyntheticDataset.__init__` followed by
`self.data = self.generate_data()` where
`generate_data = generate_mask() * generate_values()`.  The `values`
argument is the result of the subclass's `generate_values`.  If
`generate_mask` raises, the construction fails and no dataset (hence no
`data`) is produced. -/
def initDataset (num_samples num_features : ℕ) (sparsity : SparsityArg)
    (values : TorchVal) (bern : ℕ → ℕ → Bool) (perm : List ℕ) :
    Except String SyntheticDataset :=
  match generate_mask num_samples num_features sparsity bern perm with
  | .error e => .error e
  | .ok mask => .ok ⟨num_samples, num_features, sparsity, tensorMul mask values⟩

/-- Construction of a `SyntheticUniformValued` dataset. -/
def SyntheticUniformValued.init (num_samples num_features : ℕ)
    (sparsity : SparsityArg) (bern : ℕ → ℕ → Bool) (perm : List ℕ)
    (rng : ℕ → ℕ → ℚ) : Except String SyntheticDataset :=
  initDataset num_samples num_features sparsity
    (uniformValues num_samples num_features rng) bern perm

/-- Construction of a `SyntheticBinaryValued` dataset. -/
def SyntheticBinaryValued.init (num_samples num_features : ℕ)
    (sparsity : SparsityArg) (bern : ℕ → ℕ → Bool) (perm : List ℕ) :
    Except String SyntheticDataset :=
  initDataset num_samples num_features sparsity binaryValues bern perm

/-- Torch tensor row indexing `t[idx]` with a Python integer `idx`:
indices in `[0, len)` index from the front, indices in `[-len, 0)` index
from the back, anything else raises `IndexError`. -/
def pyIndex (rows : List (List ℚ)) (idx : ℤ) : Except String (List ℚ) :=
  let n : ℤ := (rows.length : ℤ)
  if 0 ≤ idx ∧ idx < n then .ok (rows.getD idx.toNat [])
  else if -n ≤ idx ∧ idx < 0 then .ok (rows.getD (idx + n).toNat [])
  else .error "IndexError: index out of bounds"

/-- `SyntheticDataset.__getitem__`: `return self.data[idx]`. -/
def SyntheticDataset.getitem (d : SyntheticDataset) (idx : ℤ) :
    Except String (List ℚ) :=
  pyIndex d.data idx

/-- `SyntheticDataset.__len__`: `return self.num_samples`. -/
def SyntheticDataset.len (d : SyntheticDataset) : ℕ := d.num_samples

/-- The post-construction API of a dataset: the `__len__` and
`__getitem__` calls. -/
inductive DsCall where
  | lenCall
  | getitemCall (idx : ℤ)
deriving DecidableEq, Repr

/-- Run one API call against a dataset, returning the call's result and
the dataset state afterwards.  Both method bodies only read fields
(`return self.num_samples`, `return self.data[idx]`); neither contains
an assignment, so the state after the call is the state before it. -/
def runCall (d : SyntheticDataset) : DsCall → (ℕ ⊕ Except String (List ℚ)) × SyntheticDataset
  | .lenCall => (.inl d.len, d)
  | .getitemCall idx => (.inr (d.getitem idx), d)

/-- Run a sequence of API calls, threading the dataset state. -/
def runCalls (d : SyntheticDataset) (cs : List DsCall) : SyntheticDataset :=
  cs.foldl (fun s c => (runCall s c).2) d

/-! ### Helper lemmas: shapes and entry ranges -/

lemma length_bernoulliMask (ns nf : ℕ) (bern : ℕ → ℕ → Bool) :
    (bernoulliMask ns nf bern).length = ns := by
  simp [bernoulliMask]

lemma row_length_bernoulliMask (ns nf : ℕ) (bern : ℕ → ℕ → Bool) :
    ∀ row ∈ bernoulliMask ns nf bern, row.length = nf := by
  intro row hrow
  rcases List.mem_map.1 hrow with ⟨i, _, rfl⟩
  simp

lemma length_intPolicyMask (ns nf : ℕ) (l : List ℕ) :
    (intPolicyMask ns nf l).length = ns := by
  simp [intPolicyMask]

lemma row_length_intPolicyMask (ns nf : ℕ) (l : List ℕ) :
    ∀ row ∈ intPolicyMask ns nf l, row.length = nf := by
  intro row hrow
  have := List.eq_of_mem_replicate hrow
  subst this
  simp

lemma generate_mask_ok_shape {ns nf : ℕ} {sp : SparsityArg}
    {bern : ℕ → ℕ → Bool} {perm : List ℕ} {mask : List (List ℚ)}
    (h : generate_mask ns nf sp bern perm = .ok mask) :
    mask.length = ns ∧ ∀ row ∈ mask, row.length = nf := by
  cases sp with
  | floatVal p =>
    simp only [generate_mask] at h
    split at h
    · cases h
      exact ⟨length_bernoulliMask ns nf bern, row_length_bernoulliMask ns nf bern⟩
    · cases h
  | intVal k =>
    simp only [generate_mask] at h
    cases h
    exact ⟨length_intPolicyMask _ _ _, row_length_intPolicyMask _ _ _⟩
  | boolVal b =>
    simp only [generate_mask] at h
    cases h
    exact ⟨length_intPolicyMask _ _ _, row_length_intPolicyMask _ _ _⟩
  | strVal s =>
    simp [generate_mask] at h

lemma generate_mask_ok_entries {ns nf : ℕ} {sp : SparsityArg}
    {bern : ℕ → ℕ → Bool} {perm : List ℕ} {mask : List (List ℚ)}
    (h : generate_mask ns nf sp bern perm = .ok mask) :
    ∀ row ∈ mask, ∀ x ∈ row, x = 0 ∨ x = 1 := by
  have key : ∀ (l : List ℕ), ∀ row ∈ intPolicyMask ns nf l,
      ∀ x ∈ row, x = (0 : ℚ) ∨ x = 1 := by
    intro l row hrow x hx
    have := List.eq_of_mem_replicate hrow
    subst this
    rcases List.mem_map.1 hx with ⟨j, _, rfl⟩
    by_cases hj : j ∈ l <;> simp [hj]
  cases sp with
  | floatVal p =>
    simp only [generate_mask] at h
    split at h
    · cases h
      intro row hrow x hx
      rcases List.mem_map.1 hrow with ⟨i, _, rfl⟩
      rcases List.mem_map.1 hx with ⟨j, _, rfl⟩
      by_cases hb : bern i j <;> simp [hb]
    · cases h
  | intVal k =>
    simp only [generate_mask] at h
    cases h
    exact key _
  | boolVal b =>
    simp only [generate_mask] at h
    cases h
    exact key _
  | strVal s =>
    simp [generate_mask] at h

lemma length_uvMatrix (ns nf : ℕ) (rng : ℕ → ℕ → ℚ) :
    (uvMatrix ns nf rng).length = ns := by
  simp [uvMatrix]

lemma row_length_uvMatrix (ns nf : ℕ) (rng : ℕ → ℕ → ℚ) :
    ∀ row ∈ uvMatrix ns nf rng, row.length = nf := by
  intro row hrow
  rcases List.mem_map.1 hrow with ⟨i, _, rfl⟩
  simp

lemma uvMatrix_entries (ns nf : ℕ) (rng : ℕ → ℕ → ℚ) :
    ∀ row ∈ uvMatrix ns nf rng, ∀ x ∈ row, ∃ i j, x = rng i j := by
  intro row hrow x hx
  rcases List.mem_map.1 hrow with ⟨i, _, rfl⟩
  rcases List.mem_map.1 hx with ⟨j, _, rfl⟩
  exact ⟨i, j, rfl⟩

lemma mem_zipWith {α β γ : Type} {f : α → β → γ} {x : γ} :
    ∀ {l1 : List α} {l2 : List β}, x ∈ List.zipWith f l1 l2 →
      ∃ a ∈ l1, ∃ b ∈ l2, x = f a b := by
  intro l1
  induction l1 with
  | nil => intro l2 h; simp at h
  | cons a t ih =>
    intro l2 h
    cases l2 with
    | nil => simp at h
    | cons b t2 =>
      simp only [List.zipWith, List.mem_cons] at h
      rcases h with h | h
      · exact ⟨a, List.mem_cons_self a t, b, List.mem_cons_self b t2, h⟩
      · rcases ih h with ⟨a', ha', b', hb', hx⟩
        exact ⟨a', List.mem_cons_of_mem _ ha', b', List.mem_cons_of_mem _ hb', hx⟩

lemma initDataset_ok {ns nf : ℕ} {sp : SparsityArg} {vals : TorchVal}
    {bern : ℕ → ℕ → Bool} {perm : List ℕ} {d : SyntheticDataset}
    (h : initDataset ns nf sp vals bern perm = .ok d) :
    ∃ mask, generate_mask ns nf sp bern perm = .ok mask ∧
      d = ⟨ns, nf, sp, tensorMul mask vals⟩ := by
  unfold initDataset at h
  split at h
  · cases h
  next mask hmask =>
    cases h
    exact ⟨mask, hmask, rfl⟩

lemma tensorMul_scalar_length (mask : List (List ℚ)) (c : ℚ) :
    (tensorMul mask (.scalar c)).length = mask.length := by
  simp [tensorMul]

lemma tensorMul_matrix_length (mask m : List (List ℚ)) :
    (tensorMul mask (.matrix m)).length = min mask.length m.length := by
  simp [tensorMul]

lemma uniform_init_ok_shape {ns nf : ℕ} {sp : SparsityArg}
    {bern : ℕ → ℕ → Bool} {perm : List ℕ} {rng : ℕ → ℕ → ℚ}
    {d : SyntheticDataset}
    (h : SyntheticUniformValued.init ns nf sp bern perm rng = .ok d) :
    d.num_samples = ns ∧ d.num_features = nf ∧ d.data.length = ns ∧
      ∀ row ∈ d.data, row.length = nf := by
  rcases initDataset_ok h with ⟨mask, hmask, rfl⟩
  obtain ⟨hml, hmr⟩ := generate_mask_ok_shape hmask
  refine ⟨rfl, rfl, ?_, ?_⟩
  · simp [uniformValues, tensorMul, hml, length_uvMatrix]
  · intro row hrow
    rcases mem_zipWith hrow with ⟨a, ha, b, hb, rfl⟩
    rw [List.length_zipWith, hmr a ha, row_length_uvMatrix ns nf rng b hb,
      Nat.min_self]

lemma binary_init_ok_shape {ns nf : ℕ} {sp : SparsityArg}
    {bern : ℕ → ℕ → Bool} {perm : List ℕ} {d : SyntheticDataset}
    (h : SyntheticBinaryValued.init ns nf sp bern perm = .ok d) :
    d.num_samples = ns ∧ d.num_features = nf ∧ d.data.length = ns ∧
      ∀ row ∈ d.data, row.length = nf := by
  rcases initDataset_ok h with ⟨mask, hmask, rfl⟩
  obtain ⟨hml, hmr⟩ := generate_mask_ok_shape hmask
  refine ⟨rfl, rfl, ?_, ?_⟩
  · simp [binaryValues, tensorMul, hml]
  · intro row hrow
    rcases List.mem_map.1 hrow with ⟨a, ha, rfl⟩
    simp [hmr a ha]

lemma pyIndex_nonneg (rows : List (List ℚ)) (i : ℕ) (h : i < rows.length) :
    pyIndex rows (i : ℤ) = .ok (rows.getD i []) := by
  simp only [pyIndex]
  rw [if_pos ⟨Int.natCast_nonneg i, by exact_mod_cast h⟩]
  simp

lemma pyIndex_neg (rows : List (List ℚ)) (idx : ℤ)
    (h1 : -(rows.length : ℤ) ≤ idx) (h2 : idx < 0) :
    pyIndex rows idx = .ok (rows.getD (idx + rows.length).toNat []) := by
  simp only [pyIndex]
  rw [if_neg (by omega), if_pos ⟨h1, h2⟩]

lemma pyIndex_out_of_bounds (rows : List (List ℚ)) (idx : ℤ)
    (h : idx < -(rows.length : ℤ) ∨ (rows.length : ℤ) ≤ idx) :
    pyIndex rows idx = .error "IndexError: index out of bounds" := by
  simp only [pyIndex]
  rw [if_neg (by omega), if_neg (by omega)]

lemma runCall_state (d : SyntheticDataset) (c : DsCall) : (runCall d c).2 = d := by
  cases c <;> rfl

lemma runCalls_state (d : SyntheticDataset) (cs : List DsCall) :
    runCalls d cs = d := by
  induction cs with
  | nil => rfl
  | cons c t ih =>
    simp only [runCalls, List.foldl_cons, runCall_state] at ih ⊢
    exact ih

/-! ### Claims -/

/-- C3: constructing with a sparsity that is neither a float nor an
integer (here: a string) raises `ValueError` from `generate_mask`, for
both subclasses; the construction returns an error, so no dataset object
is produced and no `data` field is ever assigned (no partial-failure
state). -/
theorem c3_string_sparsity_raises (ns nf : ℕ) (s : String)
    (bern : ℕ → ℕ → Bool) (perm : List ℕ) (rng : ℕ → ℕ → ℚ) :
    generate_mask ns nf (.strVal s) bern perm =
        .error "Sparsity must be a float or an integer. Received str." ∧
      SyntheticUniformValued.init ns nf (.strVal s) bern perm rng =
        .error "Sparsity must be a float or an integer. Received str." ∧
      SyntheticBinaryValued.init ns nf (.strVal s) bern perm =
        .error "Sparsity must be a float or an integer. Received str." :=
  ⟨rfl, rfl, rfl⟩

/-- C7: the dataset is immutable after construction: any sequence of
`__len__`/`__getitem__` calls leaves the dataset (hence the fields
`data`, `num_samples`, `num_features` and `sparsity`) unchanged, and
`__len__` always returns `num_samples`, including after any sequence of
calls. -/
theorem c7_immutable_after_construction (d : SyntheticDataset)
    (cs : List DsCall) :
    runCalls d cs = d ∧
      (runCalls d cs).data = d.data ∧
      (runCalls d cs).num_samples = d.num_samples ∧
      (runCalls d cs).num_features = d.num_features ∧
      (runCalls d cs).sparsity = d.sparsity ∧
      (runCalls d cs).len = d.num_samples := by
  have h := runCalls_state d cs
  rw [h]
  exact ⟨rfl, rfl, rfl, rfl, rfl, rfl⟩

/-- C10: a boolean sparsity does not raise `ValueError`: because Python's
`bool` is a subtype of `int` (and not of `float`), the integer mask
policy is selected, and the boolean is used as the slice stop, so `True`
behaves as the exact count 1 and `False` as the exact count 0. -/
theorem c10_bool_sparsity_is_int_policy (ns nf : ℕ) (b : Bool)
    (bern : ℕ → ℕ → Bool) (perm : List ℕ) :
    generate_mask ns nf (.boolVal b) bern perm =
        .ok (intPolicyMask ns nf (pySliceTo (if b then 1 else 0) perm)) ∧
      generate_mask ns nf (.boolVal b) bern perm =
        generate_mask ns nf (.intVal (if b then 1 else 0)) bern perm := by
  cases b <;> exact ⟨rfl, rfl⟩

/-- C9: an integer sparsity `k > num_features` does not make construction
fail: the slice `randperm(num_features)[: k]` silently truncates to all
`num_features` indices, so the mask is all ones, identical to what
`k = num_features` produces. -/
theorem c9_oversized_int_sparsity (ns nf : ℕ) (k : ℤ)
    (bern : ℕ → ℕ → Bool) (perm : List ℕ)
    (hperm : perm.Perm (List.range nf)) (hk : (nf : ℤ) < k) :
    generate_mask ns nf (.intVal k) bern perm =
        .ok (List.replicate ns (List.replicate nf 1)) ∧
      generate_mask ns nf (.intVal k) bern perm =
        generate_mask ns nf (.intVal (nf : ℤ)) bern perm := by
  have hlen : perm.length = nf := by simpa using hperm.length_eq
  have htake : pySliceTo k perm = perm := by
    unfold pySliceTo
    rw [if_pos (by omega)]
    exact List.take_of_length_le (by omega)
  have htake2 : pySliceTo (nf : ℤ) perm = perm := by
    unfold pySliceTo
    rw [if_pos (Int.natCast_nonneg nf)]
    exact List.take_of_length_le (by omega)
  have hrow : ((List.range nf).map fun j => if j ∈ perm then (1 : ℚ) else 0) =
      List.replicate nf 1 := by
    rw [List.map_congr_left (g := fun _ => (1 : ℚ))
      (fun j hj => if_pos (hperm.mem_iff.2 hj))]
    simp
  constructor
  · simp only [generate_mask, htake, intPolicyMask, hrow]
  · simp only [generate_mask, htake, htake2]

lemma countP_mem_eq_length {n : ℕ} {l : List ℕ} (hnd : l.Nodup)
    (hlt : ∀ x ∈ l, x < n) :
    (List.range n).countP (fun j => decide (j ∈ l)) = l.length := by
  rw [List.countP_eq_length_filter]
  have hp : ((List.range n).filter (fun j => decide (j ∈ l))).Perm l := by
    apply List.perm_of_nodup_nodup_toFinset_eq
      ((List.nodup_range n).filter _) hnd
    ext x
    simp only [List.mem_toFinset, List.mem_filter, List.mem_range,
      decide_eq_true_eq]
    exact ⟨fun hx => hx.2, fun hx => ⟨hlt x hx, hx⟩⟩
  exact hp.length_eq

lemma getD_zipWith {α β γ : Type} (f : α → β → γ) (l1 : List α) (l2 : List β)
    (i : ℕ) (da : α) (db : β) (dc : γ) (h1 : i < l1.length)
    (h2 : i < l2.length) :
    (List.zipWith f l1 l2).getD i dc = f (l1.getD i da) (l2.getD i db) := by
  have hz : i < (List.zipWith f l1 l2).length := by
    rw [List.length_zipWith]; omega
  rw [List.getD_eq_getElem _ _ hz, List.getD_eq_getElem _ _ h1,
    List.getD_eq_getElem _ _ h2, List.getElem_zipWith]

/-- C2: for an integer sparsity `k` with `0 ≤ k ≤ num_features` and a
valid `randperm` output, every row of the generated mask has exactly `k`
ones, all rows are identical (hence the set of non-zero column indices is
the same for all rows), `k = 0` gives the all-zero mask and
`k = num_features` gives the all-ones mask. -/
theorem c2_int_sparsity_mask (ns nf : ℕ) (k : ℤ)
    (bern : ℕ → ℕ → Bool) (perm : List ℕ) (mask : List (List ℚ))
    (hperm : perm.Perm (List.range nf)) (hk0 : 0 ≤ k) (hk : k ≤ (nf : ℤ))
    (hmask : generate_mask ns nf (.intVal k) bern perm = .ok mask) :
    (∀ row ∈ mask, row.count 1 = k.toNat) ∧
      (∀ r1 ∈ mask, ∀ r2 ∈ mask, r1 = r2) ∧
      (k = 0 → mask = List.replicate ns (List.replicate nf 0)) ∧
      (k = (nf : ℤ) → mask = List.replicate ns (List.replicate nf 1)) := by
  simp only [generate_mask] at hmask
  cases hmask
  have hplen : perm.length = nf := by simpa using hperm.length_eq
  have htake : pySliceTo k perm = perm.take k.toNat := by
    unfold pySliceTo; rw [if_pos hk0]
  refine ⟨?_, ?_, ?_, ?_⟩
  · intro row hrow
    have hre := List.eq_of_mem_replicate hrow
    subst hre
    rw [htake]
    have hnd2 : (perm.take k.toNat).Nodup :=
      List.Nodup.sublist (List.take_sublist _ _) ((hperm.nodup_iff).2
        (List.nodup_range nf))
    have hlt : ∀ x ∈ perm.take k.toNat, x < nf := by
      intro x hx
      have hxp : x ∈ perm := (List.take_sublist _ _).subset hx
      simpa using hperm.mem_iff.1 hxp
    have hlen2 : (perm.take k.toNat).length = k.toNat := by
      rw [List.length_take, hplen]; omega
    calc ((List.range nf).map fun j =>
            if j ∈ perm.take k.toNat then (1 : ℚ) else 0).count 1
        = (List.range nf).countP
            (fun j => decide (j ∈ perm.take k.toNat)) := by
          rw [List.count, List.countP_map]
          congr 1
          funext j
          by_cases hj : j ∈ perm.take k.toNat <;> simp [hj]
      _ = k.toNat := by rw [countP_mem_eq_length hnd2 hlt, hlen2]
  · intro r1 h1 r2 h2
    rw [List.eq_of_mem_replicate h1, List.eq_of_mem_replicate h2]
  · intro hzero
    subst hzero
    simp only [intPolicyMask, htake, Int.toNat_zero, List.take_zero,
      List.not_mem_nil, if_false]
    rw [List.map_const']
    simp
  · intro hfull
    subst hfull
    have htk : pySliceTo (nf : ℤ) perm = perm := by
      unfold pySliceTo
      rw [if_pos (Int.natCast_nonneg nf)]
      exact List.take_of_length_le (by omega)
    simp only [intPolicyMask, htk]
    rw [List.map_congr_left (g := fun _ => (1 : ℚ))
      (fun j hj => if_pos (hperm.mem_iff.2 hj))]
    simp

/-- C5: in a successfully constructed binary-valued dataset, every
non-zero entry of the stored `data` array equals exactly 1. -/
theorem c5_binary_nonzero_is_one (ns nf : ℕ) (sp : SparsityArg)
    (bern : ℕ → ℕ → Bool) (perm : List ℕ) (d : SyntheticDataset)
    (h : SyntheticBinaryValued.init ns nf sp bern perm = .ok d) :
    ∀ row ∈ d.data, ∀ x ∈ row, x ≠ 0 → x = 1 := by
  rcases initDataset_ok h with ⟨mask, hmask, rfl⟩
  intro row hrow x hx hne
  simp only [binaryValues, tensorMul] at hrow
  rcases List.mem_map.1 hrow with ⟨a, ha, rfl⟩
  rcases List.mem_map.1 hx with ⟨y, hy, rfl⟩
  rcases generate_mask_ok_entries hmask a ha y hy with h0 | h1
  · exact absurd (by rw [h0]; ring) hne
  · rw [h1]; ring

/-- C6: in a successfully constructed uniform-valued dataset, every
non-zero entry of the stored `data` array lies in `[0, 1)` (given
`torch.rand`'s guarantee that each draw lies in `[0, 1)`). -/
theorem c6_uniform_nonzero_in_unit (ns nf : ℕ) (sp : SparsityArg)
    (bern : ℕ → ℕ → Bool) (perm : List ℕ) (rng : ℕ → ℕ → ℚ)
    (d : SyntheticDataset)
    (hrng : ∀ i j, 0 ≤ rng i j ∧ rng i j < 1)
    (h : SyntheticUniformValued.init ns nf sp bern perm rng = .ok d) :
    ∀ row ∈ d.data, ∀ x ∈ row, x ≠ 0 → 0 ≤ x ∧ x < 1 := by
  rcases initDataset_ok h with ⟨mask, hmask, rfl⟩
  intro row hrow x hx hne
  simp only [uniformValues, tensorMul] at hrow
  rcases mem_zipWith hrow with ⟨a, ha, b, hb, rfl⟩
  rcases mem_zipWith hx with ⟨m, hm, v, hv, rfl⟩
  rcases generate_mask_ok_entries hmask a ha m hm with h0 | h1
  · exact absurd (by rw [h0]; ring) hne
  · rw [h1, one_mul]
    rcases uvMatrix_entries ns nf rng b hb v hv with ⟨i, j, rfl⟩
    exact hrng i j

/-- C8: for a successfully constructed dataset (either variant) and a
negative index `idx` with `-num_samples ≤ idx < 0`, `__getitem__` does
not raise: it returns the row at position `num_samples + idx`, by the
usual Python/torch negative-index semantics. -/
theorem c8_negative_index (ns nf : ℕ) (sp : SparsityArg)
    (bern : ℕ → ℕ → Bool) (perm : List ℕ) (rng : ℕ → ℕ → ℚ)
    (d : SyntheticDataset)
    (h : SyntheticUniformValued.init ns nf sp bern perm rng = .ok d ∨
      SyntheticBinaryValued.init ns nf sp bern perm = .ok d) :
    ∀ idx : ℤ, -(ns : ℤ) ≤ idx → idx < 0 →
      d.getitem idx = .ok (d.data.getD (idx + ns).toNat []) := by
  have hlen : d.data.length = ns := by
    rcases h with h | h
    · exact (uniform_init_ok_shape h).2.2.1
    · exact (binary_init_ok_shape h).2.2.1
  intro idx h1 h2
  unfold SyntheticDataset.getitem
  rw [pyIndex_neg d.data idx (by rw [hlen]; exact h1) h2, hlen]

/-- C1 counterexample: the claim says `__getitem__` fails for every index
outside `[0, num_samples)`, but `-1` is outside that interval and tensor
indexing accepts it: on a concrete binary-valued dataset with 2 samples,
`__getitem__(-1)` returns the last row instead of raising. -/
theorem c1_counterexample :
    SyntheticBinaryValued.init 2 1 (.intVal 1) (fun _ _ => true) [0] =
        .ok ⟨2, 1, .intVal 1, [[1], [1]]⟩ ∧
      SyntheticDataset.getitem ⟨2, 1, .intVal 1, [[1], [1]]⟩ (-1) =
        .ok [1] := by
  constructor
  · simp [SyntheticBinaryValued.init, initDataset, generate_mask, binaryValues,
      tensorMul, intPolicyMask, pySliceTo, List.replicate, List.range_succ]
  · simp [SyntheticDataset.getitem, pyIndex, List.getD]

/-- C1 (amended): for a successfully constructed dataset (either
variant), `__getitem__` fails with `IndexError` exactly when the index
is outside `[-num_samples, num_samples)`; for `0 ≤ idx < num_samples` it
returns the row at that index. -/
theorem c1_index_bounds (ns nf : ℕ) (sp : SparsityArg)
    (bern : ℕ → ℕ → Bool) (perm : List ℕ) (rng : ℕ → ℕ → ℚ)
    (d : SyntheticDataset)
    (h : SyntheticUniformValued.init ns nf sp bern perm rng = .ok d ∨
      SyntheticBinaryValued.init ns nf sp bern perm = .ok d) :
    (∀ idx : ℤ, idx < -(ns : ℤ) ∨ (ns : ℤ) ≤ idx →
        d.getitem idx = .error "IndexError: index out of bounds") ∧
      ∀ idx : ℤ, 0 ≤ idx → idx < (ns : ℤ) →
        d.getitem idx = .ok (d.data.getD idx.toNat []) := by
  have hlen : d.data.length = ns := by
    rcases h with h | h
    · exact (uniform_init_ok_shape h).2.2.1
    · exact (binary_init_ok_shape h).2.2.1
  constructor
  · intro idx hout
    unfold SyntheticDataset.getitem
    exact pyIndex_out_of_bounds d.data idx (by rw [hlen]; exact hout)
  · intro idx h0 hlt
    unfold SyntheticDataset.getitem
    have : idx = ((idx.toNat : ℕ) : ℤ) := (Int.toNat_of_nonneg h0).symm
    rw [this]
    exact pyIndex_nonneg d.data idx.toNat (by omega)

/-- C4: for successfully constructed datasets (both variants, over the
same mask draw), the stored `data` equals `mask * values` computed once
at construction, and `__getitem__(i)` for `0 ≤ i < num_samples` returns
a vector of length `num_features` equal to the elementwise product
`mask[i] * values[i]` (with the binary variant's scalar value `1.0`
broadcast over the row). -/
theorem c4_data_is_mask_times_values (ns nf : ℕ) (sp : SparsityArg)
    (bern : ℕ → ℕ → Bool) (perm : List ℕ) (rng : ℕ → ℕ → ℚ)
    (mask : List (List ℚ)) (du db : SyntheticDataset)
    (hmask : generate_mask ns nf sp bern perm = .ok mask)
    (hu : SyntheticUniformValued.init ns nf sp bern perm rng = .ok du)
    (hb : SyntheticBinaryValued.init ns nf sp bern perm = .ok db) :
    du.data = tensorMul mask (uniformValues ns nf rng) ∧
      db.data = tensorMul mask binaryValues ∧
      (∀ i : ℕ, i < ns →
        du.getitem (i : ℤ) = .ok (List.zipWith (· * ·) (mask.getD i [])
            ((uvMatrix ns nf rng).getD i [])) ∧
          (List.zipWith (· * ·) (mask.getD i [])
            ((uvMatrix ns nf rng).getD i [])).length = nf) ∧
      ∀ i : ℕ, i < ns →
        db.getitem (i : ℤ) = .ok ((mask.getD i []).map (· * 1)) ∧
          ((mask.getD i []).map (· * 1)).length = nf := by
  obtain ⟨hml, hmr⟩ := generate_mask_ok_shape hmask
  rcases initDataset_ok hu with ⟨mask1, hmask1, hdu⟩
  rcases initDataset_ok hb with ⟨mask2, hmask2, hdb⟩
  rw [hmask] at hmask1 hmask2
  cases hmask1
  cases hmask2
  subst hdu
  subst hdb
  have hmaskrow : ∀ i : ℕ, i < ns → (mask.getD i []).length = nf := by
    intro i hi
    have hilt : i < mask.length := by omega
    rw [List.getD_eq_getElem mask [] hilt]
    exact hmr _ (List.getElem_mem hilt)
  have huvrow : ∀ i : ℕ, i < ns →
      ((uvMatrix ns nf rng).getD i []).length = nf := by
    intro i hi
    have hilt : i < (uvMatrix ns nf rng).length := by
      rw [length_uvMatrix]; exact hi
    rw [List.getD_eq_getElem _ [] hilt]
    exact row_length_uvMatrix ns nf rng _ (List.getElem_mem hilt)
  refine ⟨rfl, rfl, ?_, ?_⟩
  · intro i hi
    have hul : (uvMatrix ns nf rng).length = ns := length_uvMatrix ns nf rng
    have hdl : (tensorMul mask (uniformValues ns nf rng)).length = ns := by
      simp only [uniformValues, tensorMul, List.length_zipWith, hml, hul,
        Nat.min_self]
    constructor
    · show pyIndex (tensorMul mask (uniformValues ns nf rng)) (i : ℤ) = _
      rw [pyIndex_nonneg _ i (by omega)]
      simp only [uniformValues, tensorMul]
      rw [getD_zipWith _ mask (uvMatrix ns nf rng) i [] [] [] (by omega)
        (by omega)]
    · rw [List.length_zipWith, hmaskrow i hi, huvrow i hi, Nat.min_self]
  · intro i hi
    have hdl : (tensorMul mask binaryValues).length = mask.length :=
      tensorMul_scalar_length mask 1
    constructor
    · show pyIndex (tensorMul mask binaryValues) (i : ℤ) = _
      rw [pyIndex_nonneg _ i (by omega)]
      simp only [binaryValues, tensorMul]
      have hilt : i < mask.length := by omega
      have hml2 : i < (mask.map fun row => row.map fun x => x * 1).length := by
        rw [List.length_map]; omega
      rw [List.getD_eq_getElem _ [] hml2, List.getD_eq_getElem mask [] hilt,
        List.getElem_map]
    · rw [List.length_map, hmaskrow i hi]

/-! ### Concrete witnesses -/

/-- Witness for C2 at `num_samples = 2`, `num_features = 2`, `k = 2`,
`perm = [1, 0]`: the mask is the all-ones matrix and each row has two
ones. -/
theorem c2_int_sparsity_mask_witness :
    ([1, 0] : List ℕ).Perm (List.range 2) ∧
      (List.replicate 2 (1 : ℚ)).count 1 = (2 : ℤ).toNat ∧
      intPolicyMask 2 2 (pySliceTo 2 [1, 0]) =
        List.replicate 2 (List.replicate 2 1) := by
  have h := c2_int_sparsity_mask 2 2 2 (fun _ _ => true) [1, 0]
    (intPolicyMask 2 2 (pySliceTo 2 [1, 0])) (by decide) (by decide)
    (by decide) rfl
  have hfull := h.2.2.2 (by decide)
  refine ⟨by decide, ?_, hfull⟩
  have := h.1 (List.replicate 2 (1 : ℚ)) (by rw [hfull]; simp)
  exact this

/-- Witness for C9 at `num_features = 2`, `k = 3`, `perm = [1, 0]`:
construction succeeds and the mask is all ones. -/
theorem c9_oversized_int_sparsity_witness :
    ([1, 0] : List ℕ).Perm (List.range 2) ∧ (2 : ℤ) < 3 ∧
      generate_mask 2 2 (.intVal 3) (fun _ _ => true) [1, 0] =
        .ok (List.replicate 2 (List.replicate 2 1)) :=
  ⟨by decide, by decide,
    (c9_oversized_int_sparsity 2 2 3 (fun _ _ => true) [1, 0] (by decide)
      (by decide)).1⟩

/-- Witness for C5 on a concrete binary-valued dataset with two samples:
construction succeeds and the selected non-zero entry equals 1. -/
theorem c5_binary_nonzero_is_one_witness :
    SyntheticBinaryValued.init 2 1 (.intVal 1) (fun _ _ => true) [0] =
        .ok ⟨2, 1, .intVal 1, [[1], [1]]⟩ ∧ (1 : ℚ) = 1 := by
  have hinit : SyntheticBinaryValued.init 2 1 (.intVal 1) (fun _ _ => true)
      [0] = .ok ⟨2, 1, .intVal 1, [[1], [1]]⟩ := by
    simp [SyntheticBinaryValued.init, initDataset, generate_mask,
      binaryValues, tensorMul, intPolicyMask, pySliceTo, List.replicate,
      List.range_succ]
  exact ⟨hinit, c5_binary_nonzero_is_one 2 1 (.intVal 1) (fun _ _ => true)
    [0] _ hinit [1] (by simp) 1 (by simp) (by simp)⟩

/-- Witness for C6 on a concrete uniform-valued dataset with one sample
whose single random draw is `1/2`: the non-zero entry lies in `[0, 1)`. -/
theorem c6_uniform_nonzero_in_unit_witness :
    (0 : ℚ) ≤ 1 / 2 ∧ (1 / 2 : ℚ) < 1 := by
  have hinit : SyntheticUniformValued.init 1 1 (.intVal 1) (fun _ _ => true)
      [0] (fun _ _ => 1 / 2) = .ok ⟨1, 1, .intVal 1, [[1 / 2]]⟩ := by
    simp [SyntheticUniformValued.init, initDataset, generate_mask,
      uniformValues, uvMatrix, tensorMul, intPolicyMask, pySliceTo,
      List.range_succ, List.zipWith]
  exact c6_uniform_nonzero_in_unit 1 1 (.intVal 1) (fun _ _ => true) [0]
    (fun _ _ => 1 / 2) _ (fun _ _ => by norm_num) hinit [1 / 2] (by simp)
    (1 / 2) (by simp) (by norm_num)

/-- Witness for C8 on a concrete binary-valued dataset with two samples:
`__getitem__(-1)` returns the row at position `2 + (-1) = 1`. -/
theorem c8_negative_index_witness :
    SyntheticDataset.getitem ⟨2, 1, .intVal 1, [[1], [1]]⟩ (-1) =
      .ok (List.getD [[(1 : ℚ)], [1]] (-1 + ((2 : ℕ) : ℤ)).toNat []) := by
  have hinit : SyntheticBinaryValued.init 2 1 (.intVal 1) (fun _ _ => true)
      [0] = .ok ⟨2, 1, .intVal 1, [[1], [1]]⟩ := by
    simp [SyntheticBinaryValued.init, initDataset, generate_mask,
      binaryValues, tensorMul, intPolicyMask, pySliceTo, List.replicate,
      List.range_succ]
  exact c8_negative_index 2 1 (.intVal 1) (fun _ _ => true) [0]
    (fun _ _ => 0) _ (Or.inr hinit) (-1) (by norm_num) (by norm_num)

/-- Witness for the amended C1 on a concrete binary-valued dataset with
two samples: index 2 raises `IndexError`, index 0 returns the first
row. -/
theorem c1_index_bounds_witness :
    SyntheticDataset.getitem ⟨2, 1, .intVal 1, [[1], [1]]⟩ 2 =
        .error "IndexError: index out of bounds" ∧
      SyntheticDataset.getitem ⟨2, 1, .intVal 1, [[1], [1]]⟩ 0 =
        .ok (List.getD [[(1 : ℚ)], [1]] (0 : ℤ).toNat []) := by
  have hinit : SyntheticBinaryValued.init 2 1 (.intVal 1) (fun _ _ => true)
      [0] = .ok ⟨2, 1, .intVal 1, [[1], [1]]⟩ := by
    simp [SyntheticBinaryValued.init, initDataset, generate_mask,
      binaryValues, tensorMul, intPolicyMask, pySliceTo, List.replicate,
      List.range_succ]
  have h := c1_index_bounds 2 1 (.intVal 1) (fun _ _ => true) [0]
    (fun _ _ => 0) _ (Or.inr hinit)
  exact ⟨h.1 2 (Or.inr (by norm_num)), h.2 0 (by norm_num) (by norm_num)⟩

/-- Witness for C4 on concrete uniform- and binary-valued datasets with
two samples, one feature and integer sparsity 1: `__getitem__(0)`
returns the elementwise product of the mask row and the values row. -/
theorem c4_data_is_mask_times_values_witness :
    SyntheticDataset.getitem ⟨2, 1, .intVal 1, [[1 / 2], [1 / 2]]⟩ (0 : ℤ) =
        .ok (List.zipWith (· * ·) (List.getD [[(1 : ℚ)], [1]] 0 [])
          ((uvMatrix 2 1 (fun _ _ => 1 / 2)).getD 0 [])) ∧
      SyntheticDataset.getitem ⟨2, 1, .intVal 1, [[1], [1]]⟩ (0 : ℤ) =
        .ok ((List.getD [[(1 : ℚ)], [1]] 0 []).map (· * 1)) := by
  have hmask : generate_mask 2 1 (.intVal 1) (fun _ _ => true) [0] =
      .ok [[(1 : ℚ)], [1]] := by
    simp [generate_mask, intPolicyMask, pySliceTo, List.replicate,
      List.range_succ]
  have hu : SyntheticUniformValued.init 2 1 (.intVal 1) (fun _ _ => true)
      [0] (fun _ _ => 1 / 2) = .ok ⟨2, 1, .intVal 1, [[1 / 2], [1 / 2]]⟩ := by
    simp [SyntheticUniformValued.init, initDataset, generate_mask,
      uniformValues, uvMatrix, tensorMul, intPolicyMask, pySliceTo,
      List.range_succ, List.zipWith, List.replicate]
  have hb : SyntheticBinaryValued.init 2 1 (.intVal 1) (fun _ _ => true)
      [0] = .ok ⟨2, 1, .intVal 1, [[1], [1]]⟩ := by
    simp [SyntheticBinaryValued.init, initDataset, generate_mask,
      binaryValues, tensorMul, intPolicyMask, pySliceTo, List.replicate,
      List.range_succ]
  have h := c4_data_is_mask_times_values 2 1 (.intVal 1) (fun _ _ => true)
    [0] (fun _ _ => 1 / 2) [[(1 : ℚ)], [1]] _ _ hmask hu hb
  exact ⟨(h.2.2.1 0 (by norm_num)).1, (h.2.2.2 0 (by norm_num)).1⟩

end TMSData
